import Mathlib

set_option linter.unusedVariables false

/-!
Shallow embedding of the reminder-bot scheduling core (src/reminder.py).

Wall-clock arithmetic is modelled in whole minutes: an absolute instant is an
`Int` (minutes since an arbitrary epoch), and a timezone is a fixed offset in
minutes from that epoch clock (pytz zone objects are modelled by their UTC
offset; DST transitions are outside the model).  Strings stored in the
database (`reminder_time`, timezone names, `job_id`) are Lean `String`s, and
the `job_id` format analysis uses `List Char` with an explicit model of
Python's `str.split` / `int`.
-/

namespace ReminderBot

/-- Default timezone name, `DEFAULT_TIMEZONE = 'Europe/Moscow'` in the source. -/
def DEFAULT_TIMEZONE : String := "Europe/Moscow"

/-- The closed recurrence vocabulary from the frequency keyboards
(`once | daily | weekly | weekdays | mon_wed_fri | tue_thu`). -/
inductive Frequency
  | once
  | daily
  | weekly
  | weekdays
  | mon_wed_fri
  | tue_thu
deriving DecidableEq, Repr

/-- Days of the week, used for the `day_of_week` field of a cron trigger. -/
inductive Weekday
  | mon | tue | wed | thu | fri | sat | sun
deriving DecidableEq, Repr

/-- APScheduler day-of-week index: `mon = 0`, ..., `sun = 6`. -/
def dowIndex : Weekday → Nat
  | .mon => 0
  | .tue => 1
  | .wed => 2
  | .thu => 3
  | .fri => 4
  | .sat => 5
  | .sun => 6

/-- A cron `day_of_week` field expression, covering exactly the grammar the
source feeds to `CronTrigger`: `'*'`, a range `'a-b'`, or a comma list. -/
inductive CronDowExpr
  | star
  | range (a b : Weekday)
  | listOf (ds : List Weekday)
deriving DecidableEq, Repr

/-- The `frequency_map` dictionary of `schedule_reminder` /
`_load_reminders_from_database`:
`{'daily': '*', 'weekly': 'sun-sat', 'weekdays': 'mon-fri',
  'mon_wed_fri': 'mon,wed,fri', 'tue_thu': 'tue,thu'}`.
`once` is not a key of the dictionary (lookup would raise `KeyError`),
hence `none`. -/
def frequency_map : Frequency → Option CronDowExpr
  | .once => none
  | .daily => some .star
  | .weekly => some (.range .sun .sat)
  | .weekdays => some (.range .mon .fri)
  | .mon_wed_fri => some (.listOf [.mon, .wed, .fri])
  | .tue_thu => some (.listOf [.tue, .thu])

/-- Days denoted by a cron range `a-b`.  APScheduler 3.x `RangeExpression`
rejects a range whose first value exceeds the last (`ValueError`), so a range
such as `sun-sat` (indices 6-5) makes the whole `CronTrigger` construction
raise instead of denoting any day set. -/
def rangeDows (a b : Nat) : Option (List Nat) :=
  if a ≤ b then some (List.range' a (b - a + 1)) else none

/-- The set of day indices matched by a cron `day_of_week` field; `none` when
the field is invalid and `CronTrigger` raises. -/
def exprDays : CronDowExpr → Option (List Nat)
  | .star => some (List.range 7)
  | .range a b => rangeDows (dowIndex a) (dowIndex b)
  | .listOf ds => some (ds.map dowIndex)

/-- Day-of-week indices a recurring frequency fires on: `exprDays` of its
`frequency_map` entry; `none` for the absent `once` key or for a frequency
whose cron field `CronTrigger` rejects. -/
def daysOfFrequency (f : Frequency) : Option (List Nat) :=
  (frequency_map f).bind exprDays

/-! ### The `once` fire-instant computation

`schedule_reminder`, `once` branch:
```
now = datetime.now(timezone)
reminder_time = timezone.localize(datetime.combine(now.date(), time(hour, minute)))
if reminder_time < now:
    reminder_time += timedelta(days=1)
trigger = DateTrigger(reminder_time)
```
With `tz` the zone's offset in minutes, local wall time is `now + tz`;
`now.date()` is the floor of that to a multiple of 1440; `combine` + `localize`
turns the wall-clock `(hour, minute)` of that local day back into an absolute
instant; `timedelta(days=1)` on a pytz-localized datetime advances the absolute
instant by exactly 1440 minutes. -/

/-- Absolute fire instant produced by the `once` branch of
`schedule_reminder` (minutes; `tz` = zone offset in minutes). -/
def onceFireInstant (tz : Int) (hour minute : Nat) (now : Int) : Int :=
  let localDay : Int := (now + tz) / 1440
  let candidate : Int := localDay * 1440 + ((hour : Int) * 60 + (minute : Int)) - tz
  if candidate < now then candidate + 1440 else candidate

/-! ### Python string primitives

`str.split(sep)` for a one-character separator, and `int(...)` on a decimal
string, modelled over `List Char` so that everything kernel-evaluates. -/

/-- Python `s.split(c)` for a single-character separator: the separator-free
segments, with empty segments kept (`''.split(c) == ['']`). -/
def splitOnChar (c : Char) : List Char → List (List Char)
  | [] => [[]]
  | x :: xs =>
    if x = c then [] :: splitOnChar c xs
    else
      match splitOnChar c xs with
      | [] => [[x]]
      | y :: ys => (x :: y) :: ys

/-- Value of a decimal digit character, `none` on any other character. -/
def digitVal? (ch : Char) : Option Nat :=
  if '0' ≤ ch ∧ ch ≤ '9' then some (ch.toNat - 48) else none

/-- Accumulator loop of decimal parsing. -/
def charsToNatAux : List Char → Nat → Option Nat
  | [], acc => some acc
  | ch :: rest, acc =>
    match digitVal? ch with
    | none => none
    | some d => charsToNatAux rest (acc * 10 + d)

/-- Python `int(s)` on an unsigned decimal string: fails (raises
`ValueError`, hence `none`) on the empty string or any non-digit character. -/
def charsToNat? : List Char → Option Nat
  | [] => none
  | l => charsToNatAux l 0

/-- Decimal digit character for `d < 10`. -/
def digitChar (d : Nat) : Char := Char.ofNat (48 + d)

/-- Decimal rendering, fuelled so that it is structurally recursive (the fuel
is an upper bound on the recursion depth; `natDigits` supplies enough). -/
def natDigitsAux : Nat → Nat → List Char
  | 0, _ => []
  | fuel + 1, n =>
    if n < 10 then [digitChar n]
    else natDigitsAux fuel (n / 10) ++ [digitChar (n % 10)]

/-- Decimal rendering of a natural number, as Python `str(n)` / an f-string
interpolation produces it. -/
def natDigits (n : Nat) : List Char := natDigitsAux (n + 1) n

/-! ### Trigger compilation (`schedule_reminder` / `_load_reminders_from_database`) -/

/-- A compiled APScheduler trigger: either `DateTrigger(reminder_time)` (an
absolute instant) or `CronTrigger(hour, minute, day_of_week, timezone)`.  The
cron trigger stores the timezone captured at compile time (name and offset). -/
inductive Trigger
  | date (instant : Int)
  | cron (hour minute : Nat) (days : List Nat) (tzName : String) (tzOffset : Int)
deriving DecidableEq, Repr

/-- Model of `hour, minute = map(int, time_str.split(':'))`: the stored time
string must split on `':'` into exactly two integer fields, otherwise the
statement raises (`ValueError` on unpacking or on `int`) and compilation
fails. -/
def parseTime? (s : String) : Option (Nat × Nat) :=
  match (splitOnChar ':' s.toList).map charsToNat? with
  | [some hh, some mm] => some (hh, mm)
  | _ => none

/-- Trigger construction from already-parsed fields.  `time(hour, minute)`
and `CronTrigger(hour=..., minute=...)` both validate the wall-clock ranges
and raise otherwise; `frequency_map[...]` raises `KeyError` on a frequency
outside the recurring vocabulary; and `CronTrigger` raises `ValueError` on an
invalid `day_of_week` field (the `sun-sat` range of `weekly`), so no trigger
is built in any of those cases. -/
def buildTrigger (hour minute : Nat) (freq : Frequency) (tzName : String)
    (tzOffset : Int) (now : Int) : Option Trigger :=
  if freq = .once then
    if hour < 24 ∧ minute < 60 then
      some (.date (onceFireInstant tzOffset hour minute now))
    else none
  else
    match frequency_map freq with
    | none => none
    | some e =>
      match exprDays e with
      | none => none
      | some days =>
        if hour < 24 ∧ minute < 60 then
          some (.cron hour minute days tzName tzOffset)
        else none

/-- The trigger computation shared by `schedule_reminder` and
`_load_reminders_from_database`: parse the stored `HH:MM` string, resolve the
owner's timezone name through the zone database (`pytz.timezone` raises
`UnknownTimeZoneError` on an unknown name, hence `tzdb : String → Option Int`),
then build the `once` date trigger or the recurring cron trigger.  Any failure
is an exception in the source, caught by the surrounding `try`, hence `none`. -/
def compileTrigger (tzdb : String → Option Int) (tzName : String)
    (time_str : String) (freq : Frequency) (now : Int) : Option Trigger :=
  match parseTime? time_str with
  | none => none
  | some (hour, minute) =>
    match tzdb tzName with
    | none => none
    | some off => buildTrigger hour minute freq tzName off now

/-! ### Durable and in-memory state -/

/-- A row of the `reminders` table (the columns the scheduling core reads:
comment columns are delivery payload only and elided). -/
structure Reminder where
  user_id : Nat
  job_id : String
  reminder_text : String
  reminder_time : String
  frequency : Frequency
deriving DecidableEq, Repr

/-- A live APScheduler job as registered by `scheduler.add_job(send_reminder,
trigger=..., args=[user_id, job_id], id=job_id, replace_existing=True,
misfire_grace_time=...)`. -/
structure Task where
  job_id : String
  user_id : Nat
  trigger : Trigger
  misfire_grace_time : Nat
deriving DecidableEq, Repr

/-- Whole-system state: the `reminders` table, the scheduler's job set, and
the `user_timezones` table. -/
structure BotState where
  store : List Reminder
  tasks : List Task
  user_timezones : List (Nat × String)
deriving DecidableEq, Repr

/-- `get_user_timezone`: `SELECT timezone FROM user_timezones WHERE user_id=?`,
falling back to `DEFAULT_TIMEZONE` when there is no row. -/
def get_user_timezone (st : BotState) (uid : Nat) : String :=
  ((st.user_timezones.find? (fun p => p.1 = uid)).map (fun p => p.2)).getD
    DEFAULT_TIMEZONE

/-- `set_user_timezone`: `INSERT OR REPLACE INTO user_timezones` — the old row
for the user (if any) is replaced; nothing else in the state is touched. -/
def set_user_timezone (uid : Nat) (tz : String) (st : BotState) : BotState :=
  { st with
    user_timezones := (uid, tz) :: st.user_timezones.filter (fun p => p.1 ≠ uid) }

/-- `delete_reminder_from_database`: `DELETE FROM reminders WHERE job_id = ?`. -/
def delete_reminder_from_database (jid : String) (st : BotState) : BotState :=
  { st with store := st.store.filter (fun r => r.job_id ≠ jid) }

/-- The `try: scheduler.remove_job(job_id) except: log/pass` fragment that the
delete paths use to cancel a job: the job is removed when present; the
`JobLookupError` on an absent id is swallowed, so the call is total. -/
def cancel_job (jid : String) (st : BotState) : BotState :=
  { st with tasks := st.tasks.filter (fun t => t.job_id ≠ jid) }

/-- `get_user_reminders`: `SELECT ... FROM reminders WHERE user_id = ?`. -/
def get_user_reminders (st : BotState) (uid : Nat) : List Reminder :=
  st.store.filter (fun r => r.user_id = uid)

/-- `schedule_reminder(user_id, reminder)`: compile the trigger against the
owner's *current* stored timezone, then `add_job(..., id=job_id,
replace_existing=True, misfire_grace_time=300)`.  A compile exception is
caught and logged and no job is registered. -/
def schedule_reminder (tzdb : String → Option Int) (now : Int) (uid : Nat)
    (jid time_str : String) (freq : Frequency) (st : BotState) : BotState :=
  match compileTrigger tzdb (get_user_timezone st uid) time_str freq now with
  | none => st
  | some trig =>
    { st with
      tasks := ⟨jid, uid, trig, 300⟩ :: st.tasks.filter (fun t => t.job_id ≠ jid) }

/-- Delivery outcomes at the dispatcher boundary inside `send_reminder`'s
`try`: success, `telegram.error.Forbidden` (user blocked the bot — permanent),
or any other exception (transient, logged only). -/
inductive DeliveryOutcome
  | ok
  | forbidden
  | transient
deriving DecidableEq, Repr

/-- `send_reminder(user_id, job_id)`: fetch the current record by `job_id`
(`none` → log and return); deliver; on success delete the record iff the
frequency is `once`.  When delivery raises — `Forbidden` because the user
blocked the bot (permanent), or any other error (transient) — neither handler
ever runs: the module never binds the name `telegram` (it only does
`from telegram import ...`), so evaluating the first clause
`except telegram.error.Forbidden` raises `NameError`, which aborts the
handler search before `delete_reminder_from_database` (or the logging
fallback) executes.  The exception propagates to the scheduler's job
executor, which logs it; the state is left entirely unchanged, and no branch
ever touches the scheduler's job set. -/
def send_reminder (uid : Nat) (jid : String) (outcome : DeliveryOutcome)
    (st : BotState) : BotState :=
  match st.store.find? (fun r => r.job_id = jid) with
  | none => st
  | some r =>
    match outcome with
    | .ok =>
      if r.frequency = .once then delete_reminder_from_database jid st else st
    | .forbidden => st
    | .transient => st

/-- `delete_reminder_command` (also `delete_reminder` and
`handle_delete_reminder`): delete the row by `job_id`, then try to remove the
scheduler job, swallowing a lookup failure.  The requesting user is never
consulted. -/
def delete_reminder_command (requester : Nat) (jid : String)
    (st : BotState) : BotState :=
  cancel_job jid (delete_reminder_from_database jid st)

/-- One iteration of the rehydration loop in `_load_reminders_from_database`:
compile the record's trigger (an exception is logged and the record skipped),
then `if not self.scheduler.get_job(job_id): add_job(...,
misfire_grace_time=300)`.  Rehydration never writes the store or the timezone
table, so the loop state is the job list alone, compiled against the fixed
snapshot `st`. -/
def loadStep (tzdb : String → Option Int) (now : Int) (st : BotState)
    (ts : List Task) (r : Reminder) : List Task :=
  match compileTrigger tzdb (get_user_timezone st r.user_id) r.reminder_time
      r.frequency now with
  | none => ts
  | some trig =>
    if ts.any (fun t => t.job_id = r.job_id) then ts
    else ⟨r.job_id, r.user_id, trig, 300⟩ :: ts

/-- `_load_reminders_from_database`: fold the rehydration step over every
persisted record (`SELECT ... FROM reminders`). -/
def load_reminders_from_database (tzdb : String → Option Int) (now : Int)
    (st : BotState) : BotState :=
  { st with tasks := st.store.foldl (loadStep tzdb now st) st.tasks }

/-- The `misfire_grace_time` argument of the `add_job` call inside the
uncalled `load_all_reminders` loader, whose loop body is otherwise an elided
placeholder in the source. -/
def load_all_reminders_misfire_grace_time : Nat := 60

/-! ### Job-id construction and the owner round-trip

`set_reminder_comment` builds `f"rem_{user.id}_{datetime.now().timestamp()}"`;
`set_batch_frequency` appends `_{created_count}`.  `datetime.timestamp()`
renders as `<seconds>.<fraction>`, so it is modelled by its two decimal
components.  `reschedule_reminder` recovers the owner with
`int(job_id.split('_')[1])`. -/

/-- Decimal rendering of `datetime.now().timestamp()` (a float
`<seconds>.<fraction>`). -/
def timestampChars (sec frac : Nat) : List Char :=
  natDigits sec ++ '.' :: natDigits frac

/-- `job_id` of the single-reminder creation path (`set_reminder_comment`). -/
def single_job_id (uid sec frac : Nat) : List Char :=
  'r' :: 'e' :: 'm' :: '_' :: (natDigits uid ++ '_' :: timestampChars sec frac)

/-- `job_id` of the batch creation path (`set_batch_frequency`). -/
def batch_job_id (uid sec frac n : Nat) : List Char :=
  'r' :: 'e' :: 'm' :: '_' ::
    (natDigits uid ++ '_' :: (timestampChars sec frac ++ '_' :: natDigits n))

/-- The owner extraction of `reschedule_reminder`:
`user_id = int(job_id.split('_')[1])` (an out-of-range index or a non-integer
field raises, hence `Option`). -/
def reschedule_owner (jid : List Char) : Option Nat :=
  ((splitOnChar '_' jid)[1]?).bind charsToNat?

/-! ### Sample fixtures for concrete witnesses and counterexamples -/

/-- A small zone database: the two zones the tests below use, offsets in
minutes. -/
def sampleTzdb : String → Option Int := fun s =>
  if s = "Europe/Moscow" then some 180
  else if s = "Europe/London" then some 0
  else none

/-- A persisted daily reminder owned by user 1. -/
def remDaily : Reminder :=
  ⟨1, "rem_1_100.0", "Standup", "09:00", .daily⟩

/-- A persisted one-shot reminder owned by user 1. -/
def remOnce : Reminder :=
  ⟨1, "rem_1_200.0", "Call mom", "08:00", .once⟩

/-- A persisted record with a malformed stored time (trigger compilation
fails on it). -/
def remBadTime : Reminder :=
  ⟨1, "rem_1_300.0", "Broken", "morning", .daily⟩

/-- The live task compiled from `remDaily` under the default zone. -/
def taskDaily : Task :=
  ⟨"rem_1_100.0", 1, .cron 9 0 [0, 1, 2, 3, 4, 5, 6] "Europe/Moscow" 180, 300⟩

/-- State with `remDaily` persisted and scheduled. -/
def stDaily : BotState :=
  { store := [remDaily], tasks := [taskDaily], user_timezones := [] }

/-- State with `remOnce` persisted and scheduled. -/
def stOnce : BotState :=
  { store := [remOnce],
    tasks := [⟨"rem_1_200.0", 1, .date 1800, 300⟩],
    user_timezones := [] }

/-- Startup state: records persisted (one of them malformed), no live tasks. -/
def stStartup : BotState :=
  { store := [remDaily, remBadTime], tasks := [], user_timezones := [] }

/-- A persisted weekly reminder: its `sun-sat` cron field makes the trigger
construction raise. -/
def remWeekly : Reminder :=
  ⟨1, "rem_1_400.0", "Weekly digest", "10:00", .weekly⟩

/-- Startup state whose store also holds a weekly record (which rehydration
must skip, like the malformed one). -/
def stStartupW : BotState :=
  { store := [remDaily, remBadTime, remWeekly], tasks := [], user_timezones := [] }

end ReminderBot

namespace ReminderBot

/-- C1: for `once`, the compiled fire instant is the next wall-clock
occurrence of `(hour, minute)` in the owner's zone: it is `>= now` and
`< now + 24h`, via at most one single-day roll. -/
theorem once_fire_within_24h (tz : Int) (hour minute : Nat) (now : Int)
    (hh : hour < 24) (hm : minute < 60) :
    now ≤ onceFireInstant tz hour minute now ∧
      onceFireInstant tz hour minute now < now + 1440 := by
  simp only [onceFireInstant]
  constructor <;> split <;> omega

/-- C1 witness: concrete evaluation (tz = +180 min, 09:00, now = 600 min past
the epoch midnight: today's 09:00 local has passed, so it rolls one day). -/
theorem once_fire_within_24h_witness :
    (9 : Nat) < 24 ∧ (0 : Nat) < 60 ∧
      (600 : Int) ≤ onceFireInstant 180 9 0 600 ∧
      onceFireInstant 180 9 0 600 < 600 + 1440 :=
  ⟨by decide, by decide,
    (once_fire_within_24h 180 9 0 600 (by decide) (by decide)).1,
    (once_fire_within_24h 180 9 0 600 (by decide) (by decide)).2⟩

/-- C2 counterexample: a daily reminder is persisted and scheduled; delivery
reports a permanent failure (user blocked the bot).  Neither removal the
claim asserts happens: the record is still in the store and the task is
still registered — the unbound name `telegram` makes the `except` clause
itself raise `NameError` before the deletion can run, and nothing ever calls
`scheduler.remove_job`. -/
theorem permanent_failure_removes_nothing :
    (send_reminder 1 "rem_1_100.0" .forbidden stDaily).store = [remDaily] ∧
    (send_reminder 1 "rem_1_100.0" .forbidden stDaily).tasks = [taskDaily] := by
  decide

/-- C2 (amended): a permanent delivery failure changes nothing: the reminder
record stays in the store, the scheduled task stays registered, and every
future occurrence of the job fires and retries — the `Forbidden` handler is
dead code because matching `except telegram.error.Forbidden` raises
`NameError` on the unbound name `telegram`. -/
theorem permanent_failure_state_unchanged (uid : Nat) (jid : String)
    (st : BotState) :
    send_reminder uid jid .forbidden st = st := by
  unfold send_reminder
  cases hfind : st.store.find? (fun r => r.job_id = jid) with
  | none => rfl
  | some r => rfl

/-- C3: a successful delivery deletes the record of a `once` reminder from
the store, and leaves the state completely unchanged for any other
(recurring) frequency — recurring reminders are never auto-deleted by
delivery. -/
theorem once_deleted_recurring_kept_after_delivery (uid : Nat) (jid : String)
    (st : BotState) (r : Reminder)
    (hfind : st.store.find? (fun x => x.job_id = jid) = some r) :
    (r.frequency = .once →
      jid ∉ (send_reminder uid jid .ok st).store.map Reminder.job_id) ∧
    (r.frequency ≠ .once → send_reminder uid jid .ok st = st) := by
  constructor
  · intro honce h
    simp only [send_reminder, hfind, honce, if_pos] at h
    obtain ⟨r2, h2, he⟩ := List.mem_map.mp h
    have h3 := (List.mem_filter.mp h2).2
    simp only [ne_eq, decide_not, Bool.not_eq_true', decide_eq_false_iff_not] at h3
    exact h3 he
  · intro hrec
    simp only [send_reminder, hfind, if_neg hrec]

/-- C3 witness: firing the concrete `once` reminder with a successful
delivery removes it; firing the concrete `daily` reminder leaves the state
untouched. -/
theorem once_deleted_recurring_kept_after_delivery_witness :
    (stOnce.store.find? (fun x => x.job_id = "rem_1_200.0") = some remOnce ∧
      "rem_1_200.0" ∉ (send_reminder 1 "rem_1_200.0" .ok stOnce).store.map
        Reminder.job_id) ∧
    (stDaily.store.find? (fun x => x.job_id = "rem_1_100.0") = some remDaily ∧
      send_reminder 1 "rem_1_100.0" .ok stDaily = stDaily) :=
  ⟨⟨by decide,
      (once_deleted_recurring_kept_after_delivery 1 "rem_1_200.0" stOnce remOnce
        (by decide)).1 (by decide)⟩,
   ⟨by decide,
      (once_deleted_recurring_kept_after_delivery 1 "rem_1_100.0" stDaily remDaily
        (by decide)).2 (by decide)⟩⟩

/-- C5 counterexample: a reminder is scheduled while the owner's zone is the
default Moscow zone; the owner then switches to London.  The timezone table
changes, but the registered task — including the compiled trigger that fixes
every future fire instant — is bit-for-bit unchanged, so the change does not
affect the firings of the already-scheduled reminder. -/
theorem set_timezone_leaves_scheduled_tasks_unchanged :
    stDaily.tasks = [taskDaily] ∧
    get_user_timezone stDaily 1 = "Europe/Moscow" ∧
    get_user_timezone (set_user_timezone 1 "Europe/London" stDaily) 1 =
      "Europe/London" ∧
    (set_user_timezone 1 "Europe/London" stDaily).tasks = [taskDaily] := by
  decide

/-- C5 (amended): the owner's stored timezone is read at fire-compile time —
after `set_timezone` the stored zone is the new one and every subsequent
trigger compilation uses it — but `set_timezone` itself touches neither the
task set nor the store, so triggers compiled earlier keep their captured
zone. -/
theorem timezone_read_at_fire_compile_time (tzdb : String → Option Int)
    (now : Int) (uid : Nat) (z time_str : String) (freq : Frequency)
    (st : BotState) :
    (set_user_timezone uid z st).tasks = st.tasks ∧
    (set_user_timezone uid z st).store = st.store ∧
    get_user_timezone (set_user_timezone uid z st) uid = z ∧
    compileTrigger tzdb (get_user_timezone (set_user_timezone uid z st) uid)
        time_str freq now = compileTrigger tzdb z time_str freq now := by
  have hz : get_user_timezone (set_user_timezone uid z st) uid = z := by
    simp [get_user_timezone, set_user_timezone]
  exact ⟨rfl, rfl, hz, by rw [hz]⟩

/-- C8: removing a job whose id has no live task (`try: remove_job(job_id)
except: pass`) leaves the whole state — tasks and store — unchanged and
raises nothing to the caller. -/
theorem cancel_absent_job_noop (jid : String) (st : BotState)
    (habs : jid ∉ st.tasks.map Task.job_id) :
    cancel_job jid st = st := by
  have hfix : st.tasks.filter (fun t => t.job_id ≠ jid) = st.tasks := by
    apply List.filter_eq_self.mpr
    intro t ht
    simp only [ne_eq, decide_not, Bool.not_eq_true', decide_eq_false_iff_not]
    intro he
    exact habs (List.mem_map.mpr ⟨t, ht, he⟩)
  unfold cancel_job
  rw [hfix]

/-- C8 witness: cancelling an id that was never scheduled changes nothing. -/
theorem cancel_absent_job_noop_witness :
    "rem_404_0.0" ∉ stDaily.tasks.map Task.job_id ∧
    cancel_job "rem_404_0.0" stDaily = stDaily :=
  ⟨by decide, cancel_absent_job_noop "rem_404_0.0" stDaily (by decide)⟩

/-- C9: deletion is keyed only by `job_id`: the delete command removes the
matching record and task even when the record belongs to a different user
than the requester, and its result does not depend on the requester at
all. -/
theorem delete_not_scoped_to_requester (requester : Nat) (jid : String)
    (st : BotState) (r : Reminder) (hmem : r ∈ st.store)
    (hjid : r.job_id = jid) (howner : r.user_id ≠ requester) :
    jid ∉ (delete_reminder_command requester jid st).store.map Reminder.job_id ∧
    jid ∉ (delete_reminder_command requester jid st).tasks.map Task.job_id ∧
    ∀ requester2, delete_reminder_command requester2 jid st =
      delete_reminder_command requester jid st := by
  refine ⟨?_, ?_, fun _ => rfl⟩
  · intro h
    obtain ⟨r2, h2, he⟩ := List.mem_map.mp h
    have h3 := (List.mem_filter.mp h2).2
    simp only [ne_eq, decide_not, Bool.not_eq_true', decide_eq_false_iff_not] at h3
    exact h3 he
  · intro h
    obtain ⟨t, h2, he⟩ := List.mem_map.mp h
    have h3 := (List.mem_filter.mp h2).2
    simp only [ne_eq, decide_not, Bool.not_eq_true', decide_eq_false_iff_not] at h3
    exact h3 he

/-- C9 witness: user 999 deletes user 1's reminder by its job id. -/
theorem delete_not_scoped_to_requester_witness :
    (remDaily ∈ stDaily.store ∧ remDaily.job_id = "rem_1_100.0" ∧
      remDaily.user_id ≠ 999) ∧
    "rem_1_100.0" ∉
      (delete_reminder_command 999 "rem_1_100.0" stDaily).store.map Reminder.job_id ∧
    "rem_1_100.0" ∉
      (delete_reminder_command 999 "rem_1_100.0" stDaily).tasks.map Task.job_id :=
  ⟨⟨by decide, by decide, by decide⟩,
    (delete_not_scoped_to_requester 999 "rem_1_100.0" stDaily remDaily
      (by decide) (by decide) (by decide)).1,
    (delete_not_scoped_to_requester 999 "rem_1_100.0" stDaily remDaily
      (by decide) (by decide) (by decide)).2.1⟩

/-- Helper: every task the rehydration fold adds carries
`misfire_grace_time = 300`. -/
theorem loadFold_grace (tzdb : String → Option Int) (now : Int) (st : BotState) :
    ∀ (l : List Reminder) (ts : List Task) (t : Task),
      t ∈ l.foldl (loadStep tzdb now st) ts → t ∈ ts ∨ t.misfire_grace_time = 300 := by
  intro l
  induction l with
  | nil => exact fun ts t h => Or.inl h
  | cons r l ih =>
    intro ts t h
    rcases ih _ t h with h2 | h2
    · revert h2
      unfold loadStep
      cases hc : compileTrigger tzdb (get_user_timezone st r.user_id)
          r.reminder_time r.frequency now with
      | none => exact Or.inl
      | some trig =>
        simp only
        split
        · exact Or.inl
        · intro h2
          rcases List.mem_cons.mp h2 with h3 | h3
          · exact Or.inr (by rw [h3])
          · exact Or.inl h3
    · exact Or.inr h2

/-- C4 counterexample: the `add_job` call of the `load_all_reminders` loader
specifies a 60-second grace window, not 300 seconds. -/
theorem load_all_reminders_grace_not_300 :
    load_all_reminders_misfire_grace_time ≠ 300 := by decide

/-- C4 (amended): tasks registered by `schedule_reminder` (the interactive
and batch creation paths) and by the startup rehydration
`_load_reminders_from_database` carry a 300-second grace window; the uncalled
`load_all_reminders` loader instead specifies 60 seconds. -/
theorem registered_task_grace_300 (tzdb : String → Option Int) (now : Int)
    (uid : Nat) (jid time_str : String) (freq : Frequency) (st : BotState)
    (t : Task) :
    (t ∈ (schedule_reminder tzdb now uid jid time_str freq st).tasks →
      t ∈ st.tasks ∨ t.misfire_grace_time = 300) ∧
    (t ∈ (load_reminders_from_database tzdb now st).tasks →
      t ∈ st.tasks ∨ t.misfire_grace_time = 300) := by
  constructor
  · unfold schedule_reminder
    cases hc : compileTrigger tzdb (get_user_timezone st uid) time_str freq now with
    | none => exact Or.inl
    | some trig =>
      simp only
      intro h
      rcases List.mem_cons.mp h with h2 | h2
      · exact Or.inr (by rw [h2])
      · exact Or.inl (List.mem_filter.mp h2).1
  · exact loadFold_grace tzdb now st st.store st.tasks t

/-- C4 witness: the task rehydrated from the concrete startup state carries
the 300-second window. -/
theorem registered_task_grace_300_witness :
    taskDaily ∈ (load_reminders_from_database sampleTzdb 600 stStartup).tasks ∧
    (taskDaily ∈ stStartup.tasks ∨ taskDaily.misfire_grace_time = 300) :=
  ⟨by decide,
    (registered_task_grace_300 sampleTzdb 600 1 "" "" .daily stStartup taskDaily).2
      (by decide)⟩

/-- C6 counterexample: `weekly` does not map to any day-of-week set — its
cron field `sun-sat` is a range whose first index (sun = 6) exceeds the last
(sat = 5), which APScheduler 3.x rejects, so `CronTrigger` raises and a
weekly reminder compiles to no rule at all (here at 09:00 under a known
zone). -/
theorem weekly_cron_rule_fails_to_build :
    daysOfFrequency .weekly = none ∧
    buildTrigger 9 0 .weekly "Europe/Moscow" 180 600 = none ∧
    compileTrigger sampleTzdb "Europe/Moscow" "09:00" .weekly 600 = none := by
  decide

/-- C6 (amended): the recurrence enumeration maps to day-of-week sets
(APScheduler indices, `mon = 0` up to `sun = 6`) as: `daily` = every day;
`weekdays` = Mon-Fri; `mon_wed_fri` = {Mon, Wed, Fri}; `tue_thu` =
{Tue, Thu}; and for those the compiled cron rule carries the hour, the
minute, the day-of-week set and the timezone — but `weekly` maps to the
invalid range `sun-sat`, whose construction raises, so a weekly reminder
produces no recurrence rule and is never scheduled. -/
theorem recurrence_day_sets_weekly_invalid (hour minute : Nat)
    (tzName : String) (off now : Int) (f : Frequency) (e : CronDowExpr)
    (ds : List Nat) (hmap : frequency_map f = some e)
    (hdays : exprDays e = some ds) (hh : hour < 24) (hm : minute < 60) :
    daysOfFrequency .daily = some [0, 1, 2, 3, 4, 5, 6] ∧
    daysOfFrequency .weekly = none ∧
    daysOfFrequency .weekdays = some [0, 1, 2, 3, 4] ∧
    daysOfFrequency .mon_wed_fri = some [0, 2, 4] ∧
    daysOfFrequency .tue_thu = some [1, 3] ∧
    buildTrigger hour minute f tzName off now =
      some (.cron hour minute ds tzName off) := by
  refine ⟨by decide, by decide, by decide, by decide, by decide, ?_⟩
  cases f <;>
    simp only [frequency_map, Option.some.injEq, reduceCtorEq] at hmap <;>
    simp_all [buildTrigger, frequency_map, exprDays, rangeDows, dowIndex, hh, hm]

/-- C6 witness: the `weekdays` mapping at 09:30 Moscow time. -/
theorem recurrence_day_sets_weekly_invalid_witness :
    frequency_map .weekdays = some (.range .mon .fri) ∧
    exprDays (.range .mon .fri) = some [0, 1, 2, 3, 4] ∧
    (9 : Nat) < 24 ∧ (30 : Nat) < 60 ∧
    buildTrigger 9 30 .weekdays "Europe/Moscow" 180 600 =
      some (.cron 9 30 [0, 1, 2, 3, 4] "Europe/Moscow" 180) :=
  ⟨by decide, by decide, by decide, by decide,
    (recurrence_day_sets_weekly_invalid 9 30 "Europe/Moscow" 180 600 .weekdays
      (.range .mon .fri) [0, 1, 2, 3, 4] (by decide) (by decide) (by decide)
      (by decide)).2.2.2.2.2⟩

/-- Helper: membership of a job id after one rehydration step. -/
theorem loadStep_mem_job_id (tzdb : String → Option Int) (now : Int)
    (st : BotState) (ts : List Task) (r : Reminder) (jid : String) :
    jid ∈ (loadStep tzdb now st ts r).map Task.job_id ↔
      jid ∈ ts.map Task.job_id ∨
        (r.job_id = jid ∧
          compileTrigger tzdb (get_user_timezone st r.user_id) r.reminder_time
            r.frequency now ≠ none) := by
  unfold loadStep
  cases hc : compileTrigger tzdb (get_user_timezone st r.user_id)
      r.reminder_time r.frequency now with
  | none => simp
  | some trig =>
    simp only [ne_eq, Option.some_ne_none, not_false_iff, and_true]
    split
    · rename_i hany
      constructor
      · exact Or.inl
      · rintro (h | h)
        · exact h
        · obtain ⟨t, ht, hte⟩ := List.any_eq_true.mp hany
          simp only [decide_eq_true_eq] at hte
          exact List.mem_map.mpr ⟨t, ht, by rw [hte, h]⟩
    · simp only [List.map_cons, List.mem_cons]
      constructor
      · rintro (h | h)
        · exact Or.inr h.symm
        · exact Or.inl h
      · rintro (h | h)
        · exact Or.inr h
        · exact Or.inl h.symm

/-- Helper: job ids present after folding the rehydration step over a record
list: exactly the initial ids plus the ids of records whose trigger
compilation succeeds. -/
theorem loadFold_mem_job_id (tzdb : String → Option Int) (now : Int)
    (st : BotState) (jid : String) :
    ∀ (l : List Reminder) (ts : List Task),
      (jid ∈ (l.foldl (loadStep tzdb now st) ts).map Task.job_id ↔
        jid ∈ ts.map Task.job_id ∨
          ∃ r ∈ l, r.job_id = jid ∧
            compileTrigger tzdb (get_user_timezone st r.user_id) r.reminder_time
              r.frequency now ≠ none) := by
  intro l
  induction l with
  | nil => simp
  | cons r l ih =>
    intro ts
    rw [List.foldl_cons, ih, loadStep_mem_job_id]
    constructor
    · rintro ((h | h) | ⟨r2, h2, h3⟩)
      · exact Or.inl h
      · exact Or.inr ⟨r, List.mem_cons_self r l, h⟩
      · exact Or.inr ⟨r2, List.mem_cons_of_mem r h2, h3⟩
    · rintro (h | ⟨r2, h2, h3⟩)
      · exact Or.inl (Or.inl h)
      · rcases List.mem_cons.mp h2 with h4 | h4
        · exact Or.inl (Or.inr (h4 ▸ h3))
        · exact Or.inr ⟨r2, h4, h3⟩

/-- C7: starting with no live tasks, rehydration registers a job id exactly
when some persisted record with that id compiles successfully — records whose
trigger computation fails (malformed time string, unknown timezone) are
skipped without preventing the remaining records from being scheduled, and
the store itself is untouched. -/
theorem rehydration_schedules_exactly_compilable (tzdb : String → Option Int)
    (now : Int) (st : BotState) (jid : String) (hstart : st.tasks = []) :
    ((jid ∈ (load_reminders_from_database tzdb now st).tasks.map Task.job_id) ↔
      ∃ r ∈ st.store, r.job_id = jid ∧
        compileTrigger tzdb (get_user_timezone st r.user_id) r.reminder_time
          r.frequency now ≠ none) ∧
    (load_reminders_from_database tzdb now st).store = st.store := by
  refine ⟨?_, rfl⟩
  unfold load_reminders_from_database
  simp only
  rw [loadFold_mem_job_id, hstart]
  simp

/-- C7 witness: rehydrating a startup store holding one well-formed daily
record, one record with a malformed time and one weekly record (whose
`sun-sat` cron field raises) registers exactly the daily one and leaves the
store as is. -/
theorem rehydration_schedules_exactly_compilable_witness :
    stStartupW.tasks = [] ∧
    (load_reminders_from_database sampleTzdb 600 stStartupW).store =
      stStartupW.store ∧
    (load_reminders_from_database sampleTzdb 600 stStartupW).tasks.map
      Task.job_id = ["rem_1_100.0"] :=
  ⟨rfl,
    (rehydration_schedules_exactly_compilable sampleTzdb 600 stStartupW
      "rem_1_100.0" rfl).2,
    by decide⟩

/-- Helper: a digit character is a digit with its own value. -/
theorem digitVal?_digitChar (d : Nat) (hd : d < 10) :
    digitVal? (digitChar d) = some d := by
  interval_cases d <;> decide

/-- Helper: a digit character is not an underscore. -/
theorem digitChar_ne_underscore (d : Nat) (hd : d < 10) : digitChar d ≠ '_' := by
  interval_cases d <;> decide

/-- Helper: decimal renderings contain no underscore. -/
theorem natDigitsAux_no_underscore : ∀ fuel n : Nat, '_' ∉ natDigitsAux fuel n := by
  intro fuel
  induction fuel with
  | zero => intro n; simp [natDigitsAux]
  | succ fuel ih =>
    intro n
    simp only [natDigitsAux]
    split
    · rename_i h10
      intro hmem
      exact digitChar_ne_underscore n h10 (List.mem_singleton.mp hmem).symm
    · intro hmem
      rcases List.mem_append.mp hmem with h | h
      · exact ih _ h
      · exact digitChar_ne_underscore (n % 10) (Nat.mod_lt _ (by norm_num))
          (List.mem_singleton.mp h).symm

/-- Helper: `str(n)` contains no underscore. -/
theorem natDigits_no_underscore (n : Nat) : '_' ∉ natDigits n :=
  natDigitsAux_no_underscore (n + 1) n

/-- Helper: decimal parsing distributes over append. -/
theorem charsToNatAux_append : ∀ (xs ys : List Char) (acc : Nat),
    charsToNatAux (xs ++ ys) acc =
      (charsToNatAux xs acc).bind fun v => charsToNatAux ys v := by
  intro xs
  induction xs with
  | nil => intro ys acc; rfl
  | cons x xs ih =>
    intro ys acc
    simp only [List.cons_append, charsToNatAux]
    cases digitVal? x with
    | none => rfl
    | some d => exact ih ys (acc * 10 + d)

/-- Helper: parsing the fuelled decimal rendering recovers the value on top
of the accumulator. -/
theorem charsToNatAux_natDigitsAux : ∀ (fuel n acc : Nat), n < fuel →
    charsToNatAux (natDigitsAux fuel n) acc =
      some (acc * 10 ^ (natDigitsAux fuel n).length + n) := by
  intro fuel
  induction fuel with
  | zero => intro n acc h; exact absurd h (Nat.not_lt_zero n)
  | succ fuel ih =>
    intro n acc h
    by_cases h10 : n < 10
    · simp only [natDigitsAux, if_pos h10, charsToNatAux,
        digitVal?_digitChar n h10, List.length_singleton, pow_one]
    · have hlt : n / 10 < fuel := by omega
      have hm : n % 10 < 10 := Nat.mod_lt _ (by norm_num)
      simp only [natDigitsAux, if_neg h10]
      rw [charsToNatAux_append, ih (n / 10) acc hlt]
      simp only [Option.some_bind, charsToNatAux, digitVal?_digitChar _ hm,
        List.length_append, List.length_cons, List.length_nil]
      congr 1
      generalize (natDigitsAux fuel (n / 10)).length = L
      have hdm : 10 * (n / 10) + n % 10 = n := Nat.div_add_mod n 10
      calc (acc * 10 ^ L + n / 10) * 10 + n % 10
          = acc * (10 ^ L * 10) + (10 * (n / 10) + n % 10) := by ring
        _ = acc * 10 ^ (L + (0 + 1)) + n := by rw [hdm]; ring

/-- Helper: the fuelled rendering is nonempty whenever there is fuel. -/
theorem natDigitsAux_ne_nil (fuel n : Nat) : natDigitsAux (fuel + 1) n ≠ [] := by
  simp only [natDigitsAux]
  split
  · simp
  · simp

/-- Helper: `int(str(n)) = n` — parsing the decimal rendering of a natural
number recovers it. -/
theorem charsToNat?_natDigits (n : Nat) : charsToNat? (natDigits n) = some n := by
  have hne := natDigitsAux_ne_nil n n
  unfold natDigits
  cases hc : natDigitsAux (n + 1) n with
  | nil => exact absurd hc hne
  | cons x xs =>
    have h2 : charsToNat? (x :: xs) = charsToNatAux (x :: xs) 0 := rfl
    rw [h2, ← hc, charsToNatAux_natDigitsAux (n + 1) n 0 (Nat.lt_succ_self n)]
    simp

/-- Helper: splitting a list that starts with a separator-free segment
followed by the separator yields that segment first. -/
theorem splitOnChar_append_cons (c : Char) (ys : List Char) :
    ∀ xs : List Char, c ∉ xs →
      splitOnChar c (xs ++ c :: ys) = xs :: splitOnChar c ys := by
  intro xs
  induction xs with
  | nil => intro hn; simp [splitOnChar]
  | cons x xs ih =>
    intro hn
    have hx : ¬(x = c) := by
      intro he
      subst he
      exact hn (List.mem_cons_self x xs)
    have ih2 := ih (fun hc => hn (List.mem_cons_of_mem x hc))
    simp only [List.cons_append, splitOnChar, if_neg hx, List.append_eq, ih2]

/-- C10: every `job_id` built by the creation paths has the shape
`rem_<owner>_<timestamp>` (single) or `rem_<owner>_<timestamp>_<n>` (batch),
and the owner recovery of `reschedule_reminder` —
`int(job_id.split('_')[1])` — returns the original owner id for both. -/
theorem job_id_owner_roundtrip (uid sec frac n : Nat) :
    reschedule_owner (single_job_id uid sec frac) = some uid ∧
    reschedule_owner (batch_job_id uid sec frac n) = some uid := by
  have hrem : '_' ∉ (['r', 'e', 'm'] : List Char) := by decide
  have hdig : '_' ∉ natDigits uid := natDigits_no_underscore uid
  constructor
  · show ((splitOnChar '_'
      (['r', 'e', 'm'] ++ '_' :: (natDigits uid ++ '_' :: timestampChars sec frac)))[1]?).bind
        charsToNat? = some uid
    rw [splitOnChar_append_cons _ _ _ hrem, splitOnChar_append_cons _ _ _ hdig]
    simp [charsToNat?_natDigits]
  · show ((splitOnChar '_'
      (['r', 'e', 'm'] ++ '_' ::
        (natDigits uid ++ '_' :: (timestampChars sec frac ++ '_' :: natDigits n))))[1]?).bind
        charsToNat? = some uid
    rw [splitOnChar_append_cons _ _ _ hrem, splitOnChar_append_cons _ _ _ hdig]
    simp [charsToNat?_natDigits]

end ReminderBot
